import Mathlib

/-!
Shallow embedding of the recipe-creator core (TypeScript) in Lean 4.

The embedding covers the two subsystems the claims are about:
* the matching/scoring engine of `src/utils/recipeEngine.ts`
  (text normalisation, pantry matching, scoring, selection, scaling), and
* the model-response pipeline of the LLM module
  (JSON extraction, field normalisation, generation orchestration).

JavaScript numbers are modelled as rationals (`ℚ`), `Math.round` as
`⌊x + 1/2⌋` (round half up), JavaScript strings as Lean strings, and
JSON values as an inductive `Json` type.  `crypto.randomUUID()` is
nondeterministic and is modelled by an explicit `uuid` argument.
-/

namespace Recipes

/-- `type Unit` from `src/types.ts`: the closed set of measurement units. -/
inductive MUnit where
  | g | kg | ml | litres | tbsp | tsp | clove | whole | pinch | slice | can | cup
deriving DecidableEq, Repr

/-- `type Difficulty` from `src/types.ts`. -/
inductive Difficulty where
  | Easy | Medium | Hard
deriving DecidableEq, Repr

/-- `type DietaryTag` from `src/types.ts`. -/
inductive DietaryTag where
  | vegetarian | vegan | glutenFree
deriving DecidableEq, Repr

/-- `type Allergen` from `src/types.ts`. -/
inductive Allergen where
  | dairy | eggs | fish | gluten | nuts | shellfish | soy
deriving DecidableEq, Repr

/-- `type Equipment` from `src/types.ts`. -/
inductive Equipment where
  | hob | oven | airFryer
deriving DecidableEq, Repr

/-- Provenance tag of a recipe (`source` field). -/
inductive Source where
  | base | custom | shared | llm
deriving DecidableEq, Repr

/-- `interface Ingredient` from `src/types.ts`; `optional` and `notes`
are optional fields in TypeScript, hence `Option` here. -/
structure Ingredient where
  name : String
  quantity : ℚ
  unit : MUnit
  optional : Option Bool := none
  notes : Option String := none
deriving DecidableEq, Repr

/-- `interface MethodStep` from the LLM-edition `types.ts` (adds
`temperatureC` and `gasMark` to the step shape used by the LLM module). -/
structure MethodStep where
  text : String
  timerMinutes : Option ℚ := none
  notes : Option String := none
  temperatureC : Option ℚ := none
  gasMark : Option String := none
deriving DecidableEq, Repr

/-- `interface Recipe` from the LLM-edition `types.ts` (includes `tips`
and the `llm` provenance used by the LLM module). -/
structure Recipe where
  id : String
  title : String
  description : String
  cuisine : String
  difficulty : Difficulty
  cookTimeMinutes : ℚ
  servings : ℚ
  dietaryTags : List DietaryTag
  allergens : List Allergen
  equipment : List Equipment
  ingredients : List Ingredient
  steps : List MethodStep
  swapSuggestions : List String
  tips : List String := []
  source : Option Source := none
deriving DecidableEq, Repr

/-- `interface Preferences` from `src/types.ts`. -/
structure Preferences where
  servings : ℚ
  maxCookTime : ℚ
  cuisine : String
  dietary : List DietaryTag
  allergensToAvoid : List Allergen
  equipment : List Equipment
deriving DecidableEq, Repr

/-- `UNIT_OPTIONS` from `recipeEngine.ts` (all twelve units). -/
def UNIT_OPTIONS : List MUnit :=
  [.g, .kg, .ml, .litres, .tbsp, .tsp, .clove, .whole, .pinch, .slice, .can, .cup]

/-- `ALLERGEN_OPTIONS` from `recipeEngine.ts`. -/
def ALLERGEN_OPTIONS : List Allergen :=
  [.dairy, .eggs, .fish, .gluten, .nuts, .shellfish, .soy]

/-- `DIETARY_OPTIONS` from `recipeEngine.ts`. -/
def DIETARY_OPTIONS : List DietaryTag := [.vegetarian, .vegan, .glutenFree]

/-- `difficultyValues` from the LLM module. -/
def difficultyValues : List Difficulty := [.Easy, .Medium, .Hard]

/-- `equipmentValues` from the LLM module. -/
def equipmentValues : List Equipment := [.hob, .oven, .airFryer]

/-- `Math.round` of JavaScript on a (finite) number: round half up. -/
def jsRound (q : ℚ) : ℤ := ⌊q + 1 / 2⌋

/-- The ASCII whitespace characters trimmed by `String.prototype.trim`. -/
def jsWhitespace (c : Char) : Bool :=
  c == ' ' || c == '\t' || c == '\n' || c == '\r' || c == '\x0b' || c == '\x0c'

/-- `String.prototype.trim` (ASCII whitespace; the rarer Unicode space
characters do not occur in the data considered here). -/
def jsTrim (s : String) : String :=
  String.mk (((s.toList.dropWhile jsWhitespace).reverse.dropWhile jsWhitespace).reverse)

/-- Characters kept by the regex class `[a-z0-9\s-]` (whitespace is kept
there but immediately collapsed to single spaces afterwards, so keeping
it as a space is equivalent). -/
def isKeptChar (c : Char) : Bool :=
  (('a' ≤ c && c ≤ 'z') || ('0' ≤ c && c ≤ '9') || c == '-')

/-- `normaliseText` from `recipeEngine.ts`:
`value.toLowerCase().replace(/[^a-z0-9\s-]/g, ' ').replace(/\s+/g, ' ').trim()`.
Replacing the banned characters by spaces, collapsing whitespace runs to
one space and trimming is implemented by splitting into space-free words
and re-joining with single spaces. -/
def normaliseText (value : String) : String :=
  let mapped := value.toList.map fun c =>
    let lc := c.toLower
    if isKeptChar lc then lc else ' '
  String.intercalate " "
    (((mapped.splitOn ' ').filter (fun w => !w.isEmpty)).map (fun w => String.mk w))

/-- `String.prototype.includes`: substring containment. -/
def strIncludes (s pat : String) : Bool :=
  (List.range (s.toList.length + 1)).any fun i =>
    pat.toList.isPrefixOf (s.toList.drop i)

/-- `containsToken` from `recipeEngine.ts`. -/
def containsToken (source token : String) : Bool :=
  strIncludes (" " ++ normaliseText source ++ " ") (" " ++ normaliseText token ++ " ")

/-- `dietarySatisfied` from `recipeEngine.ts`. -/
def dietarySatisfied (recipe : Recipe) (requested : List DietaryTag) : Bool :=
  if requested.isEmpty then true
  else requested.all fun tag =>
    if tag = .vegetarian then
      recipe.dietaryTags.contains DietaryTag.vegetarian
        || recipe.dietaryTags.contains DietaryTag.vegan
    else recipe.dietaryTags.contains tag

/-- `equipmentSatisfied` from `recipeEngine.ts`. -/
def equipmentSatisfied (recipe : Recipe) (available : List Equipment) : Bool :=
  if available.isEmpty then true
  else recipe.equipment.all fun item => available.contains item

/-- `cuisineSatisfied` from `recipeEngine.ts`; `!cuisine.trim()` is the
emptiness test on the trimmed preference string. -/
def cuisineSatisfied (recipe : Recipe) (cuisine : String) : Bool :=
  if (jsTrim cuisine).isEmpty then true
  else strIncludes (normaliseText recipe.cuisine) (normaliseText cuisine)

/-- `allergenSatisfied` from `recipeEngine.ts`. -/
def allergenSatisfied (recipe : Recipe) (blocked : List Allergen) : Bool :=
  if blocked.isEmpty then true
  else !(recipe.allergens.any fun allergen => blocked.contains allergen)

/-- `hasIngredient` from `recipeEngine.ts`. -/
def hasIngredient (ingredientName : String) (pantryItems : List String) : Bool :=
  if pantryItems.isEmpty then false
  else pantryItems.any fun item =>
    let normalizedPantry := normaliseText item
    let normalizedIngredient := normaliseText ingredientName
    containsToken normalizedPantry normalizedIngredient
      || containsToken normalizedIngredient normalizedPantry

/-- `missingIngredients` from `recipeEngine.ts`. -/
def missingIngredients (recipe : Recipe) (pantryItems : List String) : List Ingredient :=
  recipe.ingredients.filter fun ingredient => !hasIngredient ingredient.name pantryItems

/-- `pantryFitPercent` from `recipeEngine.ts`. -/
def pantryFitPercent (recipe : Recipe) (pantryItems : List String) : ℚ :=
  if recipe.ingredients.length = 0 then 0
  else
    let missingCount := (missingIngredients recipe pantryItems).length
    let fit := (((recipe.ingredients.length : ℚ) - missingCount) /
      (recipe.ingredients.length : ℚ)) * 100
    max 0 (min 100 (jsRound fit : ℚ))

/-- The anonymous scored-candidate record produced by `scoreRecipe`. -/
structure ScoredCandidate where
  score : ℚ
  strictMatch : Bool
  recipe : Recipe
deriving DecidableEq, Repr

/-- `scoreRecipe` from `recipeEngine.ts`. -/
def scoreRecipe (recipe : Recipe) (pantryItems : List String)
    (preferences : Preferences) : ScoredCandidate :=
  let ingredientTotal := recipe.ingredients.length
  let missingTotal := (missingIngredients recipe pantryItems).length
  let pantryCoverage : ℚ :=
    if ingredientTotal = 0 then 0
    else ((ingredientTotal : ℚ) - missingTotal) / (ingredientTotal : ℚ)
  let timeMatch := recipe.cookTimeMinutes ≤ preferences.maxCookTime
  let cuisineMatch := cuisineSatisfied recipe preferences.cuisine
  let dietaryMatch := dietarySatisfied recipe preferences.dietary
  let equipmentMatch := equipmentSatisfied recipe preferences.equipment
  let score0 := pantryCoverage * 100
  let score1 := score0 +
    (if timeMatch then 12
     else max (-12) ((preferences.maxCookTime - recipe.cookTimeMinutes) / 5))
  let score2 := score1 + (if cuisineMatch then 8 else -4)
  let score3 := score2 + (if dietaryMatch then 10 else -50)
  let score4 := score3 + (if equipmentMatch then 8 else -30)
  { score := score4
    strictMatch := decide timeMatch && cuisineMatch && dietaryMatch && equipmentMatch
    recipe := recipe }

/-- The allergen hard pre-filter of `generateRecipeOptions`
(`recipes.filter(r => allergenSatisfied(r, preferences.allergensToAvoid))`). -/
def allergenSafePool (recipes : List Recipe) (preferences : Preferences) : List Recipe :=
  recipes.filter fun recipe => allergenSatisfied recipe preferences.allergensToAvoid

/-- The scored candidates of `generateRecipeOptions`, sorted descending by
score.  `Array.prototype.sort` is a stable sort and the comparator is
`(a, b) => b.score - a.score`, i.e. a stable sort with "greater or equal
score comes first"; `List.mergeSort` with that relation is exactly that. -/
def scoredSorted (recipes : List Recipe) (pantryItems : List String)
    (preferences : Preferences) : List ScoredCandidate :=
  ((allergenSafePool recipes preferences).map fun recipe =>
    scoreRecipe recipe pantryItems preferences).mergeSort
      fun a b => decide (b.score ≤ a.score)

/-- The strict-match selection of `generateRecipeOptions`
(`scored.filter(e => e.strictMatch).slice(0, 6).map(e => e.recipe)`). -/
def strictSelected (recipes : List Recipe) (pantryItems : List String)
    (preferences : Preferences) : List Recipe :=
  (((scoredSorted recipes pantryItems preferences).filter
    fun entry => entry.strictMatch).take 6).map fun entry => entry.recipe

/-- One iteration of the backfill `forEach` body of `generateRecipeOptions`:
skip once six are selected, skip identifiers already selected, otherwise
push at the end. -/
def backfillStep (selected : List Recipe) (entry : ScoredCandidate) : List Recipe :=
  if 6 ≤ selected.length then selected
  else if selected.any fun recipe => recipe.id = entry.recipe.id then selected
  else selected ++ [entry.recipe]

/-- The backfill loop of `generateRecipeOptions`. -/
def backfill (selected : List Recipe) (scored : List ScoredCandidate) : List Recipe :=
  scored.foldl backfillStep selected

/-- `generateRecipeOptions` from `recipeEngine.ts`. -/
def generateRecipeOptions (recipes : List Recipe) (pantryItems : List String)
    (preferences : Preferences) : List Recipe :=
  let allergenSafe := allergenSafePool recipes preferences
  let scored := scoredSorted recipes pantryItems preferences
  let selected := strictSelected recipes pantryItems preferences
  let selected := if selected.length < 3 then backfill selected scored else selected
  if selected.length < 3 then allergenSafe.take (min 3 allergenSafe.length)
  else selected.take 6

/-- `roundQuantity` from `recipeEngine.ts`. -/
def roundQuantity (value : ℚ) : ℚ :=
  if 50 ≤ value then (jsRound value : ℚ)
  else if 10 ≤ value then (jsRound (value * 2) : ℚ) / 2
  else (jsRound (value * 10) : ℚ) / 10

/-- `scaleIngredients` from `recipeEngine.ts`. -/
def scaleIngredients (ingredients : List Ingredient) (currentServings targetServings : ℚ) :
    List Ingredient :=
  if currentServings ≤ 0 ∨ targetServings ≤ 0 then ingredients
  else
    let factor := targetServings / currentServings
    ingredients.map fun ingredient =>
      { ingredient with quantity := roundQuantity (ingredient.quantity * factor) }

/-- Half the rounding granularity of `roundQuantity`'s rule at a value:
`1/2` for the nearest-integer bracket (≥ 50), `1/4` for the nearest-half
bracket (≥ 10), `1/20` for the nearest-tenth bracket. -/
def roundTol (value : ℚ) : ℚ :=
  if 50 ≤ value then 1 / 2 else if 10 ≤ value then 1 / 4 else 1 / 20

/-! ## JSON values and `JSON.parse`

The LLM module works on untrusted JSON.  JSON values are modelled by the
inductive `Json`; `JSON.parse` is modelled by a strict recursive-descent
parser (`jsonParse`). -/

/-- A JavaScript JSON value (`JSON.parse` output). -/
inductive Json where
  | null
  | bool (b : Bool)
  | num (q : ℚ)
  | str (s : String)
  | arr (items : List Json)
  | obj (fields : List (String × Json))

/-- JSON whitespace (space, tab, line feed, carriage return). -/
def jsonWs (c : Char) : Bool := c == ' ' || c == '\t' || c == '\n' || c == '\r'

/-- Skip leading JSON whitespace. -/
def skipWs (cs : List Char) : List Char := cs.dropWhile jsonWs

/-- Hexadecimal digit value. -/
def hexVal (c : Char) : Option Nat :=
  if '0' ≤ c ∧ c ≤ '9' then some (c.toNat - 48)
  else if 'a' ≤ c ∧ c ≤ 'f' then some (c.toNat - 87)
  else if 'A' ≤ c ∧ c ≤ 'F' then some (c.toNat - 55)
  else none

/-- Decimal digit run to a natural number. -/
def digitsToNat (ds : List Char) : Nat :=
  ds.foldl (fun n c => n * 10 + (c.toNat - 48)) 0

/-- Body of a JSON string literal, after the opening quote, with fuel.
Returns the decoded characters and the remaining input after the closing
quote.  Handles the JSON escapes including `\uXXXX` (surrogate pairing is
not re-combined; each unit becomes one character). -/
def parseStringChars : Nat → List Char → Option (List Char × List Char)
  | 0, _ => none
  | Nat.succ fuel, cs =>
    match cs with
    | [] => none
    | '"' :: rest => some ([], rest)
    | '\\' :: e :: rest =>
      let decoded : Option (Char × List Char) :=
        match e with
        | '"' => some ('"', rest)
        | '\\' => some ('\\', rest)
        | '/' => some ('/', rest)
        | 'b' => some ('\x08', rest)
        | 'f' => some ('\x0C', rest)
        | 'n' => some ('\n', rest)
        | 'r' => some ('\r', rest)
        | 't' => some ('\t', rest)
        | 'u' =>
          match rest with
          | h1 :: h2 :: h3 :: h4 :: rest4 =>
            match hexVal h1, hexVal h2, hexVal h3, hexVal h4 with
            | some v1, some v2, some v3, some v4 =>
              some (Char.ofNat (((v1 * 16 + v2) * 16 + v3) * 16 + v4), rest4)
            | _, _, _, _ => none
          | _ => none
        | _ => none
      match decoded with
      | none => none
      | some (c, rest2) =>
        match parseStringChars fuel rest2 with
        | none => none
        | some (body, r) => some (c :: body, r)
    | c :: rest =>
      if c.toNat < 32 then none
      else
        match parseStringChars fuel rest with
        | none => none
        | some (body, r) => some (c :: body, r)

/-- A JSON string literal, after the opening quote. -/
def parseStringRest (cs : List Char) : Option (String × List Char) :=
  match parseStringChars (cs.length + 1) cs with
  | none => none
  | some (body, r) => some (String.mk body, r)

/-- A JSON number literal: `-?(0|[1-9][0-9]*)(\.[0-9]+)?([eE][+-]?[0-9]+)?`. -/
def parseNumber (cs : List Char) : Option (ℚ × List Char) :=
  let (neg, cs1) := match cs with
    | '-' :: rest => (true, rest)
    | _ => (false, cs)
  let intDigits := cs1.takeWhile Char.isDigit
  let r1 := cs1.dropWhile Char.isDigit
  if intDigits.isEmpty then none
  else if 2 ≤ intDigits.length ∧ intDigits.headD '0' = '0' then none
  else
    let fracStep : Option (List Char × List Char) :=
      match r1 with
      | '.' :: rest =>
        let ds := rest.takeWhile Char.isDigit
        if ds.isEmpty then none else some (ds, rest.dropWhile Char.isDigit)
      | _ => some ([], r1)
    match fracStep with
    | none => none
    | some (fracDigits, r2) =>
      let expStep : Option (ℤ × List Char) :=
        match r2 with
        | 'e' :: rest | 'E' :: rest =>
          let (esign, rest2) : ℤ × List Char := match rest with
            | '+' :: t => (1, t)
            | '-' :: t => (-1, t)
            | _ => (1, rest)
          let ds := rest2.takeWhile Char.isDigit
          if ds.isEmpty then none
          else some (esign * (digitsToNat ds : ℤ), rest2.dropWhile Char.isDigit)
        | _ => some (0, r2)
      match expStep with
      | none => none
      | some (e, r3) =>
        let mantissa : ℚ := (digitsToNat intDigits : ℚ) +
          (digitsToNat fracDigits : ℚ) / (10 : ℚ) ^ fracDigits.length
        let value := (if neg then -mantissa else mantissa) * (10 : ℚ) ^ e
        some (value, r3)

mutual

/-- A JSON value, fuelled recursive descent. -/
def parseValue : Nat → List Char → Option (Json × List Char)
  | 0, _ => none
  | Nat.succ fuel, cs =>
    match skipWs cs with
    | 'n' :: 'u' :: 'l' :: 'l' :: rest => some (.null, rest)
    | 't' :: 'r' :: 'u' :: 'e' :: rest => some (.bool true, rest)
    | 'f' :: 'a' :: 'l' :: 's' :: 'e' :: rest => some (.bool false, rest)
    | '"' :: rest =>
      match parseStringRest rest with
      | none => none
      | some (s, r) => some (.str s, r)
    | '[' :: rest =>
      match skipWs rest with
      | ']' :: r2 => some (.arr [], r2)
      | cs2 =>
        match parseElems fuel cs2 with
        | none => none
        | some (items, r2) => some (.arr items, r2)
    | '\x7b' :: rest =>
      match skipWs rest with
      | '\x7d' :: r2 => some (.obj [], r2)
      | cs2 =>
        match parseMembers fuel cs2 with
        | none => none
        | some (fs, r2) => some (.obj fs, r2)
    | cs2 =>
      match parseNumber cs2 with
      | none => none
      | some (q, r) => some (.num q, r)

/-- Comma-separated JSON array elements up to the closing bracket. -/
def parseElems : Nat → List Char → Option (List Json × List Char)
  | 0, _ => none
  | Nat.succ fuel, cs =>
    match parseValue fuel cs with
    | none => none
    | some (v, rest) =>
      match skipWs rest with
      | ',' :: r2 =>
        match parseElems fuel r2 with
        | none => none
        | some (items, r3) => some (v :: items, r3)
      | ']' :: r2 => some ([v], r2)
      | _ => none

/-- Comma-separated JSON object members up to the closing brace. -/
def parseMembers : Nat → List Char → Option (List (String × Json) × List Char)
  | 0, _ => none
  | Nat.succ fuel, cs =>
    match skipWs cs with
    | '"' :: rest =>
      match parseStringRest rest with
      | none => none
      | some (key, r1) =>
        match skipWs r1 with
        | ':' :: r2 =>
          match parseValue fuel r2 with
          | none => none
          | some (v, r3) =>
            match skipWs r3 with
            | ',' :: r4 =>
              match parseMembers fuel r4 with
              | none => none
              | some (fs, r5) => some ((key, v) :: fs, r5)
            | '\x7d' :: r4 => some ([(key, v)], r4)
            | _ => none
        | _ => none
    | _ => none

end

/-- `JSON.parse`: parse a complete JSON document, requiring only
whitespace to remain afterwards.  `none` models a thrown `SyntaxError`. -/
def jsonParse (text : String) : Option Json :=
  let cs := text.toList
  match parseValue (2 * cs.length + 2) cs with
  | some (v, rest) => if (skipWs rest).isEmpty then some v else none
  | none => none

/-- JavaScript truthiness of a possibly-absent JSON value (`undefined`,
`null`, `false`, `0` and `""` are falsy). -/
def truthy : Option Json → Bool
  | none => false
  | some .null => false
  | some (.bool b) => b
  | some (.num q) => q ≠ 0
  | some (.str s) => s ≠ ""
  | some (.arr _) => true
  | some (.obj _) => true

/-- Property read on a *non-null* JSON value: `obj[key]`, `undefined`
(`none`) when the key is absent or the value is a primitive or an array
without that key.  `JSON.parse` keeps the last of duplicate keys, hence
the reversed search.  Reading a property of `null` throws in JavaScript
and is modelled separately by `jsGetE`, used where the pipeline can
receive a parsed `null`; inside the normalisers every receiver is
guarded non-null first, exactly as the source guards with
`!raw || typeof raw !== 'object'`. -/
def jsGet : Json → String → Option Json
  | .obj fields, key =>
    match fields.reverse.find? fun f => f.1 = key with
    | some f => some f.2
    | none => none
  | _, _ => none

/-- `typeof raw === 'object' && raw !== null` (arrays included). -/
def isObjectLike : Json → Bool
  | .obj _ => true
  | .arr _ => true
  | _ => false

/-! ## The LLM module's field normaliser -/

/-- `normalizeString` from the LLM module:
`typeof value === 'string' ? value.trim() : fallback`.  Note: a
whitespace-only string trims to `""`; the fallback applies only to
non-string values. -/
def normalizeString (value : Option Json) (fallback : String := "") : String :=
  match value with
  | some (.str s) => jsTrim s
  | _ => fallback

/-- JavaScript `Number(string)` restricted to decimal literals: trimmed;
empty means `0`; optional sign, digits with optional fraction and
exponent.  `none` models `NaN` or an infinity (both non-finite, so
`normalizeNumber` falls back on them; hexadecimal/octal/binary literal
forms are not modelled). -/
def parseJsNumber (s : String) : Option ℚ :=
  let cs := (jsTrim s).toList
  if cs.isEmpty then some 0
  else
    let (neg, cs1) := match cs with
      | '-' :: rest => (true, rest)
      | '+' :: rest => (false, rest)
      | _ => (false, cs)
    let intDigits := cs1.takeWhile Char.isDigit
    let r1 := cs1.dropWhile Char.isDigit
    let fracStep : Option (List Char × List Char) :=
      match r1 with
      | '.' :: rest => some (rest.takeWhile Char.isDigit, rest.dropWhile Char.isDigit)
      | _ => some ([], r1)
    match fracStep with
    | none => none
    | some (fracDigits, r2) =>
      if intDigits.isEmpty ∧ fracDigits.isEmpty then none
      else
        let expStep : Option (ℤ × List Char) :=
          match r2 with
          | 'e' :: rest | 'E' :: rest =>
            let (esign, rest2) : ℤ × List Char := match rest with
              | '+' :: t => (1, t)
              | '-' :: t => (-1, t)
              | _ => (1, rest)
            let ds := rest2.takeWhile Char.isDigit
            if ds.isEmpty then none
            else some (esign * (digitsToNat ds : ℤ), rest2.dropWhile Char.isDigit)
          | _ => some (0, r2)
        match expStep with
        | none => none
        | some (e, r3) =>
          if r3.isEmpty then
            let mantissa : ℚ := (digitsToNat intDigits : ℚ) +
              (digitsToNat fracDigits : ℚ) / (10 : ℚ) ^ fracDigits.length
            some ((if neg then -mantissa else mantissa) * (10 : ℚ) ^ e)
          else none

/-- `normalizeNumber` from the LLM module (numbers in this model are
always finite, so a number value is returned as is). -/
def normalizeNumber (value : Option Json) (fallback : ℚ) : ℚ :=
  match value with
  | some (.num q) => q
  | some (.str s) => (parseJsNumber s).getD fallback
  | _ => fallback

/-- The string names accepted by `allowedUnitSet.has`. -/
def unitFromString : String → Option MUnit
  | "g" => some .g
  | "kg" => some .kg
  | "ml" => some .ml
  | "litres" => some .litres
  | "tbsp" => some .tbsp
  | "tsp" => some .tsp
  | "clove" => some .clove
  | "whole" => some .whole
  | "pinch" => some .pinch
  | "slice" => some .slice
  | "can" => some .can
  | "cup" => some .cup
  | _ => none

/-- The string names accepted by `allowedDietarySet.has`. -/
def dietaryFromString : String → Option DietaryTag
  | "vegetarian" => some .vegetarian
  | "vegan" => some .vegan
  | "gluten-free" => some .glutenFree
  | _ => none

/-- The string names accepted by `allowedAllergenSet.has`. -/
def allergenFromString : String → Option Allergen
  | "dairy" => some .dairy
  | "eggs" => some .eggs
  | "fish" => some .fish
  | "gluten" => some .gluten
  | "nuts" => some .nuts
  | "shellfish" => some .shellfish
  | "soy" => some .soy
  | _ => none

/-- The string names accepted by `allowedEquipmentSet.has`. -/
def equipmentFromString : String → Option Equipment
  | "hob" => some .hob
  | "oven" => some .oven
  | "air-fryer" => some .airFryer
  | _ => none

/-- The string names accepted by `difficultyValues.includes`. -/
def difficultyFromString : String → Option Difficulty
  | "Easy" => some .Easy
  | "Medium" => some .Medium
  | "Hard" => some .Hard
  | _ => none

/-- `normalizeIngredient` from the LLM module. -/
def normalizeIngredient (raw : Json) : Option Ingredient :=
  if !isObjectLike raw then none
  else
    let name := normalizeString (jsGet raw "name")
    if name = "" then none
    else some
      { name := name
        quantity := max 0 (normalizeNumber (jsGet raw "quantity") 0)
        unit := match jsGet raw "unit" with
          | some (.str u) => (unitFromString u).getD .g
          | _ => MUnit.g
        optional := some (truthy (jsGet raw "optional"))
        notes := some (normalizeString (jsGet raw "notes")) }

/-- `normalizeStep` from the LLM module. -/
def normalizeStep (raw : Json) : Option MethodStep :=
  if !isObjectLike raw then none
  else
    let text := normalizeString (jsGet raw "text")
    if text = "" then none
    else
      let timerMinutes := normalizeNumber (jsGet raw "timerMinutes") 0
      let temperatureC := normalizeNumber (jsGet raw "temperatureC") 0
      some
        { text := text
          timerMinutes := if 0 < timerMinutes then some timerMinutes else none
          notes := some (normalizeString (jsGet raw "notes"))
          temperatureC := if 0 < temperatureC then some temperatureC else none
          gasMark := some (normalizeString (jsGet raw "gasMark")) }

/-- `normalizeRecipe` from the LLM module, for the non-null raw values
it is actually applied to (a `null` raw recipe throws at its first
property access in JavaScript; that path is modelled by
`normalizeRecipeE`).  `uuid` stands for the `crypto.randomUUID()` call
producing the fresh identifier. -/
def normalizeRecipe (rawRecipe : Json) (index : ℕ) (uuid : String) : Recipe :=
  let ingredients := match jsGet rawRecipe "ingredients" with
    | some (.arr items) => items.filterMap normalizeIngredient
    | _ => []
  let steps := match jsGet rawRecipe "steps" with
    | some (.arr items) => items.filterMap normalizeStep
    | _ => []
  { id := "llm-" ++ uuid
    title := normalizeString (jsGet rawRecipe "title") s!"AI Recipe {index + 1}"
    description := normalizeString (jsGet rawRecipe "description") "AI-generated recipe."
    cuisine := normalizeString (jsGet rawRecipe "cuisine") "Fusion"
    difficulty := match jsGet rawRecipe "difficulty" with
      | some (.str d) => (difficultyFromString d).getD .Easy
      | _ => Difficulty.Easy
    cookTimeMinutes := max 5 (normalizeNumber (jsGet rawRecipe "cookTimeMinutes") 30)
    servings := max 1 (normalizeNumber (jsGet rawRecipe "servings") 4)
    dietaryTags := match jsGet rawRecipe "dietaryTags" with
      | some (.arr items) => items.filterMap fun j => match j with
        | .str s => dietaryFromString s
        | _ => none
      | _ => []
    allergens := match jsGet rawRecipe "allergens" with
      | some (.arr items) => items.filterMap fun j => match j with
        | .str s => allergenFromString s
        | _ => none
      | _ => []
    equipment := match jsGet rawRecipe "equipment" with
      | some (.arr items) => items.filterMap fun j => match j with
        | .str s => equipmentFromString s
        | _ => none
      | _ => [Equipment.hob]
    ingredients := if 0 < ingredients.length then ingredients
      else [{ name := "water", quantity := 500, unit := .ml }]
    steps := if 0 < steps.length then steps
      else [{ text := "Prepare your ingredients and season to taste." },
            { text := "Cook until done and serve hot." }]
    swapSuggestions := match jsGet rawRecipe "swapSuggestions" with
      | some (.arr items) => (items.map fun j => normalizeString (some j)).filter (· ≠ "")
      | _ => []
    tips := match jsGet rawRecipe "tips" with
      | some (.arr items) => (items.map fun j => normalizeString (some j)).filter (· ≠ "")
      | _ => []
    source := some .llm }

/-! ## The response extractor -/

/-- First index at or after which `pat` occurs in `cs`. -/
def firstIndexOf (cs pat : List Char) : Option Nat :=
  (List.range (cs.length + 1)).find? fun i => pat.isPrefixOf (cs.drop i)

/-- The three-backtick fence marker. -/
def fenceChars : List Char := "```".toList

/-- The optional (case-insensitive) `json` tag after the opening fence. -/
def jsonTag : List Char := "json".toList

/-- Case-insensitive test that `cs` starts with `pat` (lowercase). -/
def startsWithCI (cs : List Char) (pat : List Char) : Bool :=
  pat.isPrefixOf ((cs.take pat.length).map Char.toLower)

/-- One attempted match of the fence regex
(three backticks, `(?:json)?`, `\s*`, lazy group, `\s*`, three backticks,
flag `i`) at an opening fence found at `i`: optionally consume a `json`
tag, then the lazily-matched group runs to the next closing fence, with
the surrounding `\s*` stripped (modelled by `String.trim`). -/
def tryFenceAt (cs : List Char) (i : Nat) : Option String :=
  let after := cs.drop (i + 3)
  let after2 := if startsWithCI after jsonTag then after.drop 4 else after
  match firstIndexOf after2 fenceChars with
  | some j => some (jsTrim (String.mk (after2.take j)))
  | none => none

/-- The fence-block regex match of `extractJsonFromText`: group 1 of the
match at the leftmost position where the whole pattern can match. -/
def fenceMatch (text : String) : Option String :=
  let cs := text.toList
  ((List.range cs.length).filterMap fun i =>
    if fenceChars.isPrefixOf (cs.drop i) then tryFenceAt cs i else none).head?

/-- `String.prototype.indexOf(char)` as an `Option`. -/
def indexOfChar (cs : List Char) (c : Char) : Option Nat :=
  (List.range cs.length).find? fun i => cs.getD i c == c

/-- `String.prototype.lastIndexOf(char)` as an `Option`. -/
def lastIndexOfChar (cs : List Char) (c : Char) : Option Nat :=
  match indexOfChar cs.reverse c with
  | some j => some (cs.length - 1 - j)
  | none => none

/-- Strategy (c) of `extractJsonFromText`: the slice from the first `{`
to the last `}` inclusive, when both exist in that order
(`rawText.slice(start, end + 1)`). -/
def braceSlice (text : String) : Option String :=
  let cs := text.toList
  match indexOfChar cs '\x7b', lastIndexOfChar cs '\x7d' with
  | some s, some e => if s < e then some (String.mk ((cs.drop s).take (e + 1 - s))) else none
  | _, _ => none

/-- The tail of `extractJsonFromText` after the fence branch has been
passed over: strategy (c), then the explicit
`throw new Error('Model response did not include JSON.')`. -/
def braceStrategy (rawText : String) : Except String Json :=
  match braceSlice rawText with
  | some slice =>
    match jsonParse slice with
    | some v => Except.ok v
    | none => Except.error "SyntaxError"
  | none => Except.error "Model response did not include JSON."

/-- `extractJsonFromText` from the LLM module.  `Except.error` models a
thrown exception: `"SyntaxError"` a `JSON.parse` failure, the final
message the explicit `throw new Error(...)`.  Note the two code
behaviours embedded faithfully here: a *falsy* successful direct parse
(`null`, `0`, `false`, `""`) falls through to the other strategies, and
the fence-branch `JSON.parse` call is not guarded by a try/catch, so its
failure propagates without attempting strategy (c). -/
def extractJsonFromText (rawText : String) : Except String Json :=
  let directParse := jsonParse rawText
  match directParse with
  | some v =>
    if truthy (some v) then Except.ok v
    else match fenceMatch rawText with
      | some content =>
        if content ≠ "" then
          match jsonParse content with
          | some w => Except.ok w
          | none => Except.error "SyntaxError"
        else braceStrategy rawText
      | none => braceStrategy rawText
  | none =>
    match fenceMatch rawText with
    | some content =>
      if content ≠ "" then
        match jsonParse content with
        | some w => Except.ok w
        | none => Except.error "SyntaxError"
      else braceStrategy rawText
    | none => braceStrategy rawText

/-- Property read `base[key]` with the JavaScript semantics for a base
that may be `null`: reading any property of `null` throws a
`TypeError`, while reading a property of a primitive merely yields
`undefined`.  (`jsGet` itself covers only non-null bases; this wrapper
is used at the two places the pipeline can receive a parsed `null`.) -/
def jsGetE : Json → String → Except String (Option Json)
  | .null, _ => Except.error "TypeError"
  | base, key => Except.ok (jsGet base key)

/-- `normalizeRecipe` with the JavaScript semantics for a `null` element
of the `recipes` array: `normalizeRecipe(null, i)` throws a `TypeError`
at its first property access (`rawRecipe.ingredients`); every non-null
value goes through `normalizeRecipe` unchanged. -/
def normalizeRecipeE : Json → ℕ → String → Except String Recipe
  | .null, _, _ => Except.error "TypeError"
  | raw, index, uuid => Except.ok (normalizeRecipe raw index uuid)

/-- The normalisation step of `generateRecipesWithLlm`:
`Array.isArray(payload.recipes) ? payload.recipes.map(normalizeRecipe) : []`,
with `uuids` supplying the `crypto.randomUUID()` value at each index.
`payload.recipes` on a `null` payload throws (a fenced `null` reply is
extracted as `null`), and a `null` array element makes the map throw at
that element; both surface as a propagated `TypeError`, modelled by the
`Except` layer. -/
def normalizedRecipesOfE (payload : Json) (uuids : ℕ → String) :
    Except String (List Recipe) :=
  match jsGetE payload "recipes" with
  | Except.error e => Except.error e
  | Except.ok (some (.arr items)) =>
    items.enum.mapM fun (p : ℕ × Json) => normalizeRecipeE p.2 p.1 (uuids p.1)
  | Except.ok _ => Except.ok []

/-- The deterministic tail of `generateRecipesWithLlm`: from an extracted
payload to the returned `{recipes, assistantSummary}`, the
`'Model returned no usable recipes.'` error, or a propagated exception
(a `TypeError` from a `null` payload or `null` recipes element escapes
uncaught — the surrounding try/catch only covers the two request
attempts).  `uuids` supplies the `crypto.randomUUID()` value used for
the recipe at each index, and the slice bound
`Math.max(1, Math.min(6, input.recipeCount))` truncates as
`Array.prototype.slice` does (the bound is at least 1, so truncation is
the floor). -/
def generateRecipesFromPayload (payload : Json) (recipeCount : ℚ) (uuids : ℕ → String) :
    Except String (List Recipe × String) :=
  match normalizedRecipesOfE payload uuids with
  | Except.error e => Except.error e
  | Except.ok normalizedRecipes =>
    if normalizedRecipes.length = 0 then Except.error "Model returned no usable recipes."
    else Except.ok
      (normalizedRecipes.take (⌊max 1 (min 6 recipeCount)⌋).toNat,
       normalizeString (jsGet payload "assistantSummary") "Recipes generated successfully.")

/-! ## Concrete sample data used by witnesses and counterexamples -/

/-- A minimal well-formed recipe with a given identifier and dietary tags. -/
def plainRecipe (i : String) (tags : List DietaryTag) : Recipe :=
  { id := i, title := "Plain dish", description := "A plain dish", cuisine := "British",
    difficulty := .Easy, cookTimeMinutes := 10, servings := 2, dietaryTags := tags,
    allergens := [], equipment := [.hob],
    ingredients := [{ name := "rice", quantity := 100, unit := .g }],
    steps := [{ text := "Cook the rice." }], swapSuggestions := [] }

/-- Four distinct plain recipes, none of them vegan. -/
def fourPlainRecipes : List Recipe :=
  [plainRecipe "1" [], plainRecipe "2" [], plainRecipe "3" [], plainRecipe "4" []]

/-- Preferences requesting vegan dishes, nothing else constrained. -/
def veganPrefs : Preferences :=
  { servings := 4, maxCookTime := 45, cuisine := "", dietary := [.vegan],
    allergensToAvoid := [], equipment := [] }

/-- Preferences avoiding nuts, nothing else constrained. -/
def nutFreePrefs : Preferences :=
  { servings := 4, maxCookTime := 45, cuisine := "", dietary := [],
    allergensToAvoid := [.nuts], equipment := [] }

/-- A recipe containing dairy (and no nuts). -/
def dairyRecipe : Recipe :=
  { plainRecipe "dairy-1" [] with allergens := [.dairy] }

/-- A recipe with no ingredients at all (the zero-ingredients corner). -/
def noIngredientsRecipe : Recipe :=
  { plainRecipe "empty-1" [] with ingredients := [] }

/-- A raw payload whose `recipes` array is empty but whose summary is valid. -/
def payloadEmptyRecipes : Json :=
  .obj [("assistantSummary", .str "ok"), ("recipes", .arr [])]

/-- A raw payload with a single (empty-object) recipe and no summary. -/
def payloadOneRecipe : Json :=
  .obj [("recipes", .arr [.obj []])]

/-- The recipe that `normalizeRecipe` produces from an empty raw object. -/
def defaultedRecipe : Recipe := normalizeRecipe (.obj []) 0 "u"

/-- A raw recipe object whose `equipment` array holds only an invalid name. -/
def rawInvalidEquipment : Json :=
  .obj [("equipment", .arr [.str "blender"])]

/-- A model reply with an invalid fenced block followed by valid braces. -/
def fenceThenBracesText : String := "```json\nnope\n``` \x7b\"a\":true\x7d"

/-- An ingredient used by the scaling counterexample. -/
def flour736 : Ingredient := { name := "flour", quantity := 736, unit := .g }

/-- An ingredient used by the scaling witness. -/
def rice100 : Ingredient := { name := "rice", quantity := 100, unit := .g }

/-! # Theorems -/

/-- **C10**: for every ingredient list, `scaleIngredients` returns the
input list unchanged — every quantity untouched, no rounding applied —
whenever `currentServings ≤ 0` or `targetServings ≤ 0`. -/
theorem scaleIngredients_nonpositive (ingredients : List Ingredient)
    (currentServings targetServings : ℚ)
    (h : currentServings ≤ 0 ∨ targetServings ≤ 0) :
    scaleIngredients ingredients currentServings targetServings = ingredients := by
  simp only [scaleIngredients, if_pos h]

/-- Witness for **C10** at servings `0` and `5`. -/
theorem scaleIngredients_nonpositive_witness :
    ((0 : ℚ) ≤ 0 ∨ (5 : ℚ) ≤ 0) ∧ scaleIngredients [flour736] 0 5 = [flour736] :=
  ⟨Or.inl le_rfl, scaleIngredients_nonpositive [flour736] 0 5 (Or.inl le_rfl)⟩

/-- **C7** counterexample: the raw object `{equipment: ["blender"]}` has
an equipment list that is empty after filtering, yet `normalizeRecipe`
returns `[]`, not `["hob"]`. -/
theorem normalizeRecipe_equipment_counterexample :
    ([Json.str "blender"].filterMap (fun j => match j with
      | .str s => equipmentFromString s
      | _ => none)) = []
    ∧ (normalizeRecipe rawInvalidEquipment 0 "u").equipment = []
    ∧ (normalizeRecipe rawInvalidEquipment 0 "u").equipment ≠ [Equipment.hob] := by
  refine ⟨rfl, rfl, ?_⟩
  intro h
  exact List.noConfusion (by simpa using h)

/-- **C7 (amended)**: `normalizeRecipe` defaults the equipment list to
`["hob"]` exactly when the raw `equipment` value is not an array; when it
is an array, invalid entries are dropped and the result is the filtered
list, which may be empty. -/
theorem normalizeRecipe_equipment (rawRecipe : Json) (index : ℕ) (uuid : String) :
    (∀ items, jsGet rawRecipe "equipment" = some (.arr items) →
      (normalizeRecipe rawRecipe index uuid).equipment =
        items.filterMap (fun j => match j with
          | .str s => equipmentFromString s
          | _ => none))
    ∧ ((∀ items, jsGet rawRecipe "equipment" ≠ some (.arr items)) →
      (normalizeRecipe rawRecipe index uuid).equipment = [Equipment.hob]) := by
  constructor
  · intro items h
    simp only [normalizeRecipe, h]
  · intro h
    rcases hj : jsGet rawRecipe "equipment" with _ | v
    · simp only [normalizeRecipe, hj]
    · cases v with
      | arr items => exact absurd hj (h items)
      | null => simp only [normalizeRecipe, hj]
      | bool b => simp only [normalizeRecipe, hj]
      | num q => simp only [normalizeRecipe, hj]
      | str s => simp only [normalizeRecipe, hj]
      | obj fields => simp only [normalizeRecipe, hj]

/-- Witness for **C7 (amended)**: an array with a valid name is kept
filtered; a missing field defaults to `["hob"]`. -/
theorem normalizeRecipe_equipment_witness :
    (normalizeRecipe (.obj [("equipment", .arr [.str "oven"])]) 0 "u").equipment =
      [Equipment.oven]
    ∧ (normalizeRecipe (.obj []) 0 "u").equipment = [Equipment.hob] := by
  constructor
  · rw [(normalizeRecipe_equipment (.obj [("equipment", .arr [.str "oven"])]) 0 "u").1
      [.str "oven"] rfl]
    rfl
  · exact (normalizeRecipe_equipment (.obj []) 0 "u").2 (fun items h => by
      exact Option.noConfusion h)

/-- **C8**: `pantryFitPercent` is within `[0, 100]`; it is `0` for a
recipe with no ingredients, `100` when every ingredient is matched by the
pantry, and otherwise equals `round(100 * (total - missing) / total)`
clamped to `[0, 100]`.  (The all-matched case presupposes the recipe has
ingredients; with zero ingredients the zero-ingredients rule applies.) -/
theorem pantryFitPercent_spec (recipe : Recipe) (pantryItems : List String) :
    (0 ≤ pantryFitPercent recipe pantryItems ∧ pantryFitPercent recipe pantryItems ≤ 100)
    ∧ (recipe.ingredients = [] → pantryFitPercent recipe pantryItems = 0)
    ∧ (recipe.ingredients ≠ [] →
        (∀ ingredient ∈ recipe.ingredients, hasIngredient ingredient.name pantryItems) →
        pantryFitPercent recipe pantryItems = 100)
    ∧ (recipe.ingredients ≠ [] →
        pantryFitPercent recipe pantryItems =
          max 0 (min 100 ((jsRound ((((recipe.ingredients.length : ℚ) -
            ((missingIngredients recipe pantryItems).length : ℚ)) /
            (recipe.ingredients.length : ℚ)) * 100) : ℤ) : ℚ))) := by
  refine ⟨?_, ?_, ?_, ?_⟩
  · unfold pantryFitPercent
    split
    · norm_num
    · constructor
      · exact le_max_left 0 _
      · exact max_le (by norm_num) (min_le_left _ _)
  · intro h
    simp [pantryFitPercent, h]
  · intro hne hall
    have hmiss : missingIngredients recipe pantryItems = [] := by
      unfold missingIngredients
      rw [List.filter_eq_nil_iff]
      intro a ha
      simp [hall a ha]
    have hlen : recipe.ingredients.length ≠ 0 :=
      Nat.pos_iff_ne_zero.mp (List.length_pos.mpr hne)
    unfold pantryFitPercent
    rw [if_neg hlen, hmiss]
    have hq : (recipe.ingredients.length : ℚ) ≠ 0 := by exact_mod_cast hlen
    have : (((recipe.ingredients.length : ℚ) - ((0 : ℕ) : ℚ)) /
        (recipe.ingredients.length : ℚ)) * 100 = 100 := by
      field_simp
    simp only [List.length_nil, this]
    norm_num [jsRound]
  · intro hne
    have hlen : recipe.ingredients.length ≠ 0 :=
      Nat.pos_iff_ne_zero.mp (List.length_pos.mpr hne)
    simp [pantryFitPercent, hlen]

/-- Witness for **C8** at a recipe with no ingredients and at a
one-ingredient recipe fully covered by the pantry. -/
theorem pantryFitPercent_spec_witness :
    pantryFitPercent noIngredientsRecipe [] = 0
    ∧ pantryFitPercent (plainRecipe "1" []) ["rice"] = 100 :=
  ⟨(pantryFitPercent_spec noIngredientsRecipe []).2.1 rfl,
   (pantryFitPercent_spec (plainRecipe "1" []) ["rice"]).2.2.1 (by decide) (by decide)⟩

/-- Every unit is in `UNIT_OPTIONS` (the allowed unit vocabulary is the
whole enum, by construction of the closed `MUnit` type). -/
theorem mem_UNIT_OPTIONS (u : MUnit) : u ∈ UNIT_OPTIONS := by
  cases u <;> simp [UNIT_OPTIONS]

/-- Every difficulty is in `difficultyValues`. -/
theorem mem_difficultyValues (d : Difficulty) : d ∈ difficultyValues := by
  cases d <;> simp [difficultyValues]

/-- Every dietary tag is in `DIETARY_OPTIONS`. -/
theorem mem_DIETARY_OPTIONS (t : DietaryTag) : t ∈ DIETARY_OPTIONS := by
  cases t <;> simp [DIETARY_OPTIONS]

/-- Every allergen is in `ALLERGEN_OPTIONS`. -/
theorem mem_ALLERGEN_OPTIONS (a : Allergen) : a ∈ ALLERGEN_OPTIONS := by
  cases a <;> simp [ALLERGEN_OPTIONS]

/-- Every equipment value is in `equipmentValues`. -/
theorem mem_equipmentValues (e : Equipment) : e ∈ equipmentValues := by
  cases e <;> simp [equipmentValues]

/-- A list guarded by the `length > 0 ? list : [fallback]` idiom is
never empty. -/
theorem length_guard_ne_nil {α : Type} (l : List α) (d : List α) (hd : d ≠ []) :
    (if 0 < l.length then l else d) ≠ [] := by
  split
  · next h => exact List.ne_nil_of_length_pos h
  · exact hd

/-- **C2**: `normalizeRecipe` applied to any raw object — wrong types,
missing fields, extra fields — always yields a recipe satisfying the
Recipe invariants: non-empty ingredients and steps, and enum-valid
`unit`, `difficulty`, `dietaryTags`, `allergens` and `equipment` values.
(The function is total in this embedding, which is the never-throw
contract; enum validity is membership in the option vocabularies.) -/
theorem normalizeRecipe_invariants (fields : List (String × Json)) (index : ℕ)
    (uuid : String) :
    (normalizeRecipe (.obj fields) index uuid).ingredients ≠ []
    ∧ (normalizeRecipe (.obj fields) index uuid).steps ≠ []
    ∧ (∀ i ∈ (normalizeRecipe (.obj fields) index uuid).ingredients, i.unit ∈ UNIT_OPTIONS)
    ∧ (normalizeRecipe (.obj fields) index uuid).difficulty ∈ difficultyValues
    ∧ (∀ t ∈ (normalizeRecipe (.obj fields) index uuid).dietaryTags, t ∈ DIETARY_OPTIONS)
    ∧ (∀ a ∈ (normalizeRecipe (.obj fields) index uuid).allergens, a ∈ ALLERGEN_OPTIONS)
    ∧ (∀ e ∈ (normalizeRecipe (.obj fields) index uuid).equipment, e ∈ equipmentValues) := by
  refine ⟨?_, ?_, fun i _ => mem_UNIT_OPTIONS i.unit, mem_difficultyValues _,
    fun t _ => mem_DIETARY_OPTIONS t, fun a _ => mem_ALLERGEN_OPTIONS a,
    fun e _ => mem_equipmentValues e⟩
  · exact length_guard_ne_nil _ _ (by simp)
  · exact length_guard_ne_nil _ _ (by simp)

/-- Witness for **C2** at the empty raw object: the defaulted recipe has
non-empty ingredients and steps. -/
theorem normalizeRecipe_invariants_witness :
    (normalizeRecipe (.obj []) 0 "u").ingredients ≠ []
    ∧ (normalizeRecipe (.obj []) 0 "u").steps ≠ [] :=
  ⟨(normalizeRecipe_invariants [] 0 "u").1, (normalizeRecipe_invariants [] 0 "u").2.1⟩

/-- **C5**: the payload-to-result tail of `generateRecipesWithLlm` never
returns an empty recipe list: whenever the `recipes` array normalises to
zero recipes (including `recipes: []` with a valid summary) it fails
with the `'Model returned no usable recipes.'` error, and on success it
returns at least one recipe.  The third conjunct records the distinct
exception path faithfully: a `TypeError` thrown during normalisation
(`null` payload or `null` recipes element) propagates as that error and
is never masked as the empty-result error nor turned into a success. -/
theorem generateRecipesFromPayload_spec (payload : Json) (recipeCount : ℚ)
    (uuids : ℕ → String) :
    (normalizedRecipesOfE payload uuids = Except.ok [] →
      generateRecipesFromPayload payload recipeCount uuids =
        Except.error "Model returned no usable recipes.")
    ∧ (∀ recipes summary,
        generateRecipesFromPayload payload recipeCount uuids =
          Except.ok (recipes, summary) → recipes ≠ [])
    ∧ (∀ e, normalizedRecipesOfE payload uuids = Except.error e →
        generateRecipesFromPayload payload recipeCount uuids = Except.error e) := by
  refine ⟨?_, ?_, ?_⟩
  · intro h
    simp [generateRecipesFromPayload, h]
  · intro recipes summary h
    simp only [generateRecipesFromPayload] at h
    split at h
    · exact Except.noConfusion h
    · split at h
      · exact Except.noConfusion h
      · next hne =>
        obtain ⟨hrec, -⟩ := Prod.mk.injEq .. ▸ (Except.ok.injEq .. ▸ h)
        intro hempty
        rw [← hrec] at hempty
        rw [List.take_eq_nil_iff] at hempty
        rcases hempty with h0 | h0
        · have h1 : (1 : ℚ) ≤ max 1 (min 6 recipeCount) := le_max_left 1 _
          have h2 : (1 : ℤ) ≤ ⌊max 1 (min 6 recipeCount)⌋ := by
            exact_mod_cast Int.le_floor.mpr (by exact_mod_cast h1)
          omega
        · exact hne (by simpa using h0)
  · intro e h
    simp [generateRecipesFromPayload, h]

/-- Witness for **C5**: a payload with `recipes: []` and a valid summary
fails with the empty-result error, a one-recipe payload yields a
non-empty list, and a `null` payload (a fenced `null` reply) propagates
the `TypeError` thrown by `payload.recipes` rather than masking it. -/
theorem generateRecipesFromPayload_spec_witness :
    generateRecipesFromPayload payloadEmptyRecipes 4 (fun _ => "u") =
      Except.error "Model returned no usable recipes."
    ∧ ([defaultedRecipe] : List Recipe) ≠ []
    ∧ generateRecipesFromPayload Json.null 4 (fun _ => "u") =
        Except.error "TypeError" :=
  ⟨(generateRecipesFromPayload_spec payloadEmptyRecipes 4 (fun _ => "u")).1 rfl,
   (generateRecipesFromPayload_spec payloadOneRecipe 4 (fun _ => "u")).2.1
     [defaultedRecipe] "Recipes generated successfully." rfl,
   (generateRecipesFromPayload_spec Json.null 4 (fun _ => "u")).2.2 "TypeError" rfl⟩

/-- **C4** counterexample: on `fenceThenBracesText` strategy (c) — the
first-`{`-to-last-`}` slice — parses, yet `extractJsonFromText` fails
with a JSON-parse error, because the fenced block's contents are invalid
and that `JSON.parse` call is not guarded by a try/catch. -/
theorem extractJsonFromText_counterexample :
    braceSlice fenceThenBracesText = some "\x7b\"a\":true\x7d"
    ∧ (jsonParse "\x7b\"a\":true\x7d").isSome = true
    ∧ extractJsonFromText fenceThenBracesText = Except.error "SyntaxError" :=
  ⟨by rfl, by rfl, by rfl⟩

/-- **C4 (amended)**: the strategies form a *committed* cascade, fully
characterised here on success and failure: (a) a direct parse is
returned exactly when its value is truthy; (b) otherwise a non-empty
fenced block commits the call to parsing its contents — its parse
result is returned on success and its parse *failure* propagates as a
JSON-parse error without attempting strategy (c); (c) otherwise the
brace slice is parsed, its value returned on success and a JSON-parse
error raised on failure, and only when no brace slice exists does the
call fail with the no-JSON error.  Hence the call fails exactly when
the committed cascade is exhausted, not — as originally claimed — only
when all three strategies would fail. -/
theorem extractJsonFromText_strategies (rawText : String) :
    (∀ v, jsonParse rawText = some v → truthy (some v) = true →
      extractJsonFromText rawText = Except.ok v)
    ∧ ((∀ v, jsonParse rawText = some v → truthy (some v) = false) →
       ∀ content, fenceMatch rawText = some content → content ≠ "" →
         (∀ w, jsonParse content = some w →
           extractJsonFromText rawText = Except.ok w)
         ∧ (jsonParse content = none →
           extractJsonFromText rawText = Except.error "SyntaxError"))
    ∧ ((∀ v, jsonParse rawText = some v → truthy (some v) = false) →
       (fenceMatch rawText = none ∨ fenceMatch rawText = some "") →
       (∀ s w, braceSlice rawText = some s → jsonParse s = some w →
         extractJsonFromText rawText = Except.ok w)
       ∧ (∀ s, braceSlice rawText = some s → jsonParse s = none →
         extractJsonFromText rawText = Except.error "SyntaxError")
       ∧ (braceSlice rawText = none →
         extractJsonFromText rawText =
           Except.error "Model response did not include JSON.")) := by
  refine ⟨?_, ?_, ?_⟩
  · intro v hv ht
    simp [extractJsonFromText, hv, ht]
  · intro hfalsy content hfence hne
    constructor
    · intro w hparse
      rcases hp : jsonParse rawText with _ | v
      · simp [extractJsonFromText, hp, hfence, hne, hparse]
      · have hf := hfalsy v hp
        simp [extractJsonFromText, hp, hf, hfence, hne, hparse]
    · intro hparse
      rcases hp : jsonParse rawText with _ | v
      · simp [extractJsonFromText, hp, hfence, hne, hparse]
      · have hf := hfalsy v hp
        simp [extractJsonFromText, hp, hf, hfence, hne, hparse]
  · intro hfalsy hfence
    refine ⟨?_, ?_, ?_⟩
    · intro s w hs hw
      have hbrace : braceStrategy rawText = Except.ok w := by
        simp [braceStrategy, hs, hw]
      rcases hp : jsonParse rawText with _ | v
      · rcases hfence with hf | hf <;> simp [extractJsonFromText, hp, hf, hbrace]
      · have hv := hfalsy v hp
        rcases hfence with hf | hf <;> simp [extractJsonFromText, hp, hv, hf, hbrace]
    · intro s hs hw
      have hbrace : braceStrategy rawText = Except.error "SyntaxError" := by
        simp [braceStrategy, hs, hw]
      rcases hp : jsonParse rawText with _ | v
      · rcases hfence with hf | hf <;> simp [extractJsonFromText, hp, hf, hbrace]
      · have hv := hfalsy v hp
        rcases hfence with hf | hf <;> simp [extractJsonFromText, hp, hv, hf, hbrace]
    · intro hs
      have hbrace : braceStrategy rawText =
          Except.error "Model response did not include JSON." := by
        simp [braceStrategy, hs]
      rcases hp : jsonParse rawText with _ | v
      · rcases hfence with hf | hf <;> simp [extractJsonFromText, hp, hf, hbrace]
      · have hv := hfalsy v hp
        rcases hfence with hf | hf <;> simp [extractJsonFromText, hp, hv, hf, hbrace]

/-- Witness for **C4 (amended)**, exercising every branch of the
committed cascade — direct success, fence success, fence parse failure,
brace success, brace parse failure, and total failure — on six concrete
model replies. -/
theorem extractJsonFromText_strategies_witness :
    extractJsonFromText "\x7b\"a\":true\x7d" = Except.ok (Json.obj [("a", Json.bool true)])
    ∧ extractJsonFromText "x ```json\ntrue\n``` y" = Except.ok (Json.bool true)
    ∧ extractJsonFromText fenceThenBracesText = Except.error "SyntaxError"
    ∧ extractJsonFromText "x and \x7b\"b\":true\x7d" =
        Except.ok (Json.obj [("b", Json.bool true)])
    ∧ extractJsonFromText "x \x7bnope\x7d" = Except.error "SyntaxError"
    ∧ extractJsonFromText "no json here" =
        Except.error "Model response did not include JSON." := by
  refine ⟨?_, ?_, ?_, ?_, ?_, ?_⟩
  · exact (extractJsonFromText_strategies "\x7b\"a\":true\x7d").1
      (Json.obj [("a", Json.bool true)]) (by rfl) rfl
  · refine ((extractJsonFromText_strategies "x ```json\ntrue\n``` y").2.1 ?_ "true"
      (by rfl) (by decide)).1 (Json.bool true) (by rfl)
    intro v hv
    rw [show jsonParse "x ```json\ntrue\n``` y" = none from by rfl] at hv
    exact Option.noConfusion hv
  · refine ((extractJsonFromText_strategies fenceThenBracesText).2.1 ?_ "nope"
      (by rfl) (by decide)).2 (by rfl)
    intro v hv
    rw [show jsonParse fenceThenBracesText = none from by rfl] at hv
    exact Option.noConfusion hv
  · refine ((extractJsonFromText_strategies "x and \x7b\"b\":true\x7d").2.2 ?_
      (Or.inl (by rfl))).1 "\x7b\"b\":true\x7d" (Json.obj [("b", Json.bool true)])
      (by rfl) (by rfl)
    intro v hv
    rw [show jsonParse "x and \x7b\"b\":true\x7d" = none from by rfl] at hv
    exact Option.noConfusion hv
  · refine ((extractJsonFromText_strategies "x \x7bnope\x7d").2.2 ?_
      (Or.inl (by rfl))).2.1 "\x7bnope\x7d" (by rfl) (by rfl)
    intro v hv
    rw [show jsonParse "x \x7bnope\x7d" = none from by rfl] at hv
    exact Option.noConfusion hv
  · refine ((extractJsonFromText_strategies "no json here").2.2 ?_
      (Or.inl (by rfl))).2.2 (by rfl)
    intro v hv
    rw [show jsonParse "no json here" = none from by rfl] at hv
    exact Option.noConfusion hv

/-- `Math.round` is within a half of its argument. -/
theorem jsRound_close (q : ℚ) : |(jsRound q : ℚ) - q| ≤ 1 / 2 := by
  have h1 := Int.floor_le (q + 1 / 2)
  have h2 := Int.lt_floor_add_one (q + 1 / 2)
  rw [jsRound, abs_le]
  constructor <;> linarith

/-- `roundQuantity` is within half a granule of its argument. -/
theorem roundQuantity_close (q : ℚ) : |roundQuantity q - q| ≤ roundTol q := by
  rw [roundQuantity, roundTol]
  split
  · exact jsRound_close q
  · split
    · have h := jsRound_close (q * 2)
      have e : (jsRound (q * 2) : ℚ) / 2 - q = ((jsRound (q * 2) : ℚ) - q * 2) / 2 := by
        ring
      rw [e, abs_div, abs_of_pos (by norm_num : (0 : ℚ) < 2)]
      linarith
    · have h := jsRound_close (q * 10)
      have e : (jsRound (q * 10) : ℚ) / 10 - q = ((jsRound (q * 10) : ℚ) - q * 10) / 10 := by
        ring
      rw [e, abs_div, abs_of_pos (by norm_num : (0 : ℚ) < 10)]
      linarith

/-- Pointwise round-trip bound for one quantity: scaling by `M/N`,
rounding, scaling back by `N/M` and rounding again lands within the
second rounding's tolerance plus the first rounding's tolerance
amplified by `N/M`. -/
theorem roundQuantity_roundTrip (q : ℚ) (N M : ℕ) (hN : 0 < N) (hM : 0 < M) :
    |roundQuantity (roundQuantity (q * ((M : ℚ) / N)) * ((N : ℚ) / M)) - q| ≤
      ((N : ℚ) / M) * roundTol (q * ((M : ℚ) / N))
        + roundTol (roundQuantity (q * ((M : ℚ) / N)) * ((N : ℚ) / M)) := by
  have hMq : (0 : ℚ) < (M : ℚ) := by exact_mod_cast hM
  have hNq : (0 : ℚ) < (N : ℚ) := by exact_mod_cast hN
  set a := q * ((M : ℚ) / N) with ha
  set b := roundQuantity a with hb
  set c := b * ((N : ℚ) / M) with hc
  have hq : a * ((N : ℚ) / M) = q := by
    rw [ha]
    field_simp
  have h1 : |roundQuantity c - c| ≤ roundTol c := roundQuantity_close c
  have h2 : |c - q| ≤ ((N : ℚ) / M) * roundTol a := by
    have e : c - q = (b - a) * ((N : ℚ) / M) := by
      rw [hc, ← hq]
      ring
    have hratio : (0 : ℚ) ≤ (N : ℚ) / M := by positivity
    rw [e, abs_mul, abs_of_nonneg hratio]
    calc |b - a| * ((N : ℚ) / M) ≤ roundTol a * ((N : ℚ) / M) :=
          mul_le_mul_of_nonneg_right (roundQuantity_close a) hratio
      _ = ((N : ℚ) / M) * roundTol a := by ring
  calc |roundQuantity c - q| ≤ |roundQuantity c - c| + |c - q| := abs_sub_le _ c q
    _ ≤ roundTol c + ((N : ℚ) / M) * roundTol a := add_le_add h1 h2
    _ = ((N : ℚ) / M) * roundTol a + roundTol c := by ring

/-- `scaleIngredients` on a one-ingredient list with valid servings. -/
theorem scaleIngredients_singleton (i : Ingredient) (c t : ℚ) (hc : ¬(c ≤ 0 ∨ t ≤ 0)) :
    scaleIngredients [i] c t = [{ i with quantity := roundQuantity (i.quantity * (t / c)) }] := by
  rw [scaleIngredients, if_neg hc]
  rfl

/-- **C9 (amended)**: the round trip `N → M → N` servings is
scale-consistent up to an *amplified* tolerance: each returned quantity
is within `(N/M) · tol(q·M/N) + tol(q'·N/M)` of the original `q`, where
`tol` is half the rounding granularity of `roundQuantity`'s rule at the
rounded value and `q'` the once-rounded quantity.  The fixed tolerance
stated in the claim fails for large ratios `N/M` (see the
counterexample), because the first rounding's error is multiplied by
`N/M` on the way back. -/
theorem scaleIngredients_roundTrip (ingredients : List Ingredient) (N M : ℕ)
    (hN : 0 < N) (hM : 0 < M) :
    List.Forall₂ (fun a b =>
        |b.quantity - a.quantity| ≤
          ((N : ℚ) / M) * roundTol (a.quantity * ((M : ℚ) / N))
            + roundTol (roundQuantity (a.quantity * ((M : ℚ) / N)) * ((N : ℚ) / M)))
      ingredients
      (scaleIngredients (scaleIngredients ingredients (N : ℚ) (M : ℚ)) (M : ℚ) (N : ℚ)) := by
  have hMq : (0 : ℚ) < (M : ℚ) := by exact_mod_cast hM
  have hNq : (0 : ℚ) < (N : ℚ) := by exact_mod_cast hN
  have c1 : ¬((N : ℚ) ≤ 0 ∨ (M : ℚ) ≤ 0) := by
    push_neg
    exact ⟨hNq, hMq⟩
  have c2 : ¬((M : ℚ) ≤ 0 ∨ (N : ℚ) ≤ 0) := by
    push_neg
    exact ⟨hMq, hNq⟩
  simp only [scaleIngredients, if_neg c1, if_neg c2, List.map_map]
  rw [List.forall₂_map_right_iff, List.forall₂_same]
  intro i _
  exact roundQuantity_roundTrip i.quantity N M hN hM

/-- Witness for **C9 (amended)** at one 100 g ingredient scaled from 2
servings to 1 and back. -/
theorem scaleIngredients_roundTrip_witness :
    List.Forall₂ (fun a b =>
        |b.quantity - a.quantity| ≤
          (((2 : ℕ) : ℚ) / (1 : ℕ)) * roundTol (a.quantity * (((1 : ℕ) : ℚ) / (2 : ℕ)))
            + roundTol (roundQuantity (a.quantity * (((1 : ℕ) : ℚ) / (2 : ℕ)))
                * (((2 : ℕ) : ℚ) / (1 : ℕ))))
      [rice100]
      (scaleIngredients (scaleIngredients [rice100] ((2 : ℕ) : ℚ) ((1 : ℕ) : ℚ))
        ((1 : ℕ) : ℚ) ((2 : ℕ) : ℚ)) :=
  scaleIngredients_roundTrip [rice100] 2 1 (by norm_num) (by norm_num)

/-- **C9** counterexample: quantity 736 scaled from 100 servings to 1
and back becomes 740, four whole units away from the original — far
outside the rounding rule's tolerance at 736 (nearest integer, so at
most 1). -/
theorem scaleIngredients_roundTrip_counterexample :
    (scaleIngredients (scaleIngredients [flour736] 100 1) 1 100).map
      (fun i => i.quantity) = [740]
    ∧ ¬(|(740 : ℚ) - 736| ≤ 1) := by
  constructor
  · have hq1 : roundQuantity ((736 : ℚ) * (1 / 100)) = 37 / 5 := by
      rw [roundQuantity, if_neg (by norm_num), if_neg (by norm_num)]
      have hfl : jsRound ((736 : ℚ) * (1 / 100) * 10) = 74 := by
        rw [jsRound, Int.floor_eq_iff]
        constructor <;> norm_num
      rw [hfl]
      norm_num
    have hq2 : roundQuantity ((37 / 5 : ℚ) * (100 / 1)) = 740 := by
      rw [roundQuantity, if_pos (by norm_num)]
      have hfl : jsRound ((37 / 5 : ℚ) * (100 / 1)) = 740 := by
        rw [jsRound, Int.floor_eq_iff]
        constructor <;> norm_num
      rw [hfl]
      norm_num
    have e1 : scaleIngredients [flour736] 100 1 = [{ flour736 with quantity := 37 / 5 }] := by
      rw [scaleIngredients_singleton flour736 100 1 (by norm_num),
        show flour736.quantity = (736 : ℚ) from rfl, hq1]
    have e2 : scaleIngredients [{ flour736 with quantity := 37 / 5 }] 1 100 =
        [{ flour736 with quantity := 740 }] := by
      rw [scaleIngredients_singleton _ 1 100 (by norm_num)]
      show [{ flour736 with quantity := roundQuantity ((37 / 5 : ℚ) * (100 / 1)) }] = _
      rw [hq2]
    rw [e1, e2]
    rfl
  · norm_num

/-- `backfill` only appends at the end of the selected list. -/
theorem backfill_append (scored : List ScoredCandidate) (selected : List Recipe) :
    ∃ t, backfill selected scored = selected ++ t := by
  induction scored generalizing selected with
  | nil => exact ⟨[], by simp [backfill]⟩
  | cons e rest ih =>
    obtain ⟨t, ht⟩ := ih (backfillStep selected e)
    rw [backfill, List.foldl_cons, ← backfill, ht]
    unfold backfillStep
    split
    · exact ⟨t, rfl⟩
    · split
      · exact ⟨t, rfl⟩
      · exact ⟨e.recipe :: t, by simp⟩

/-- The backfill loop never shrinks the selection. -/
theorem backfill_length_ge (scored : List ScoredCandidate) (selected : List Recipe) :
    selected.length ≤ (backfill selected scored).length := by
  obtain ⟨t, ht⟩ := backfill_append scored selected
  rw [ht]
  simp

/-- The backfill loop never grows the selection past six. -/
theorem backfill_length_le_six (scored : List ScoredCandidate) (selected : List Recipe)
    (h : selected.length ≤ 6) : (backfill selected scored).length ≤ 6 := by
  induction scored generalizing selected with
  | nil => simpa [backfill] using h
  | cons e rest ih =>
    rw [backfill, List.foldl_cons, ← backfill]
    apply ih
    unfold backfillStep
    split
    · exact h
    · split
      · exact h
      · next h6 _ =>
        rw [List.length_append]
        simp only [List.length_cons, List.length_nil]
        omega

/-- Elements of the backfill result come from the initial selection or
from the scored candidates. -/
theorem backfill_mem (scored : List ScoredCandidate) (selected : List Recipe) (r : Recipe)
    (h : r ∈ backfill selected scored) :
    r ∈ selected ∨ r ∈ scored.map fun e => e.recipe := by
  induction scored generalizing selected with
  | nil => exact Or.inl (by simpa [backfill] using h)
  | cons e rest ih =>
    rw [backfill, List.foldl_cons, ← backfill] at h
    rcases ih (backfillStep selected e) h with h1 | h1
    · unfold backfillStep at h1
      split at h1
      · exact Or.inl h1
      · split at h1
        · exact Or.inl h1
        · rcases List.mem_append.mp h1 with h2 | h2
          · exact Or.inl h2
          · right
            simp only [List.mem_singleton] at h2
            simp [h2]
    · right
      simp only [List.map_cons, List.mem_cons]
      exact Or.inr h1

/-- Identifier distinctness is preserved by the backfill loop. -/
theorem backfill_nodup (scored : List ScoredCandidate) (selected : List Recipe)
    (h : (selected.map Recipe.id).Nodup) :
    ((backfill selected scored).map Recipe.id).Nodup := by
  induction scored generalizing selected with
  | nil => simpa [backfill] using h
  | cons e rest ih =>
    rw [backfill, List.foldl_cons, ← backfill]
    apply ih
    unfold backfillStep
    split
    · exact h
    · split
      · exact h
      · next _ hnotin =>
        rw [List.map_append, List.nodup_append]
        refine ⟨h, by simp, ?_⟩
        intro a ha hb
        simp only [List.map_cons, List.map_nil, List.mem_singleton] at hb
        apply hnotin
        rw [List.any_eq_true]
        obtain ⟨x, hx, hxid⟩ := List.mem_map.mp ha
        exact ⟨x, hx, by simp [hxid, hb]⟩

/-- When the backfill loop ends below six, every scored identifier made
it into the selection. -/
theorem backfill_covers (scored : List ScoredCandidate) (selected : List Recipe) :
    6 ≤ (backfill selected scored).length ∨
      ∀ e ∈ scored, e.recipe.id ∈ (backfill selected scored).map Recipe.id := by
  induction scored generalizing selected with
  | nil =>
    right
    intro e he
    exact absurd he (List.not_mem_nil e)
  | cons e rest ih =>
    rw [backfill, List.foldl_cons, ← backfill]
    by_cases h6 : 6 ≤ selected.length
    · left
      have hstep : backfillStep selected e = selected := by
        unfold backfillStep
        rw [if_pos h6]
      rw [hstep]
      exact le_trans h6 (backfill_length_ge rest selected)
    · have hid : e.recipe.id ∈ (backfillStep selected e).map Recipe.id := by
        unfold backfillStep
        rw [if_neg h6]
        split
        · next hany =>
          rw [List.any_eq_true] at hany
          obtain ⟨x, hx, hxid⟩ := hany
          rw [decide_eq_true_eq] at hxid
          exact List.mem_map.mpr ⟨x, hx, hxid⟩
        · rw [List.map_append]
          simp
      rcases ih (backfillStep selected e) with h | h
      · exact Or.inl h
      · right
        intro f hf
        rcases List.mem_cons.mp hf with hfe | hf'
        · obtain ⟨t, ht⟩ := backfill_append rest (backfillStep selected e)
          rw [hfe, ht, List.map_append]
          exact List.mem_append_left _ hid
        · exact h f hf'

/-- Identifiers in the backfill result come from the initial selection
or the scored candidates. -/
theorem backfill_ids_subset (scored : List ScoredCandidate) (selected : List Recipe) :
    ∀ a ∈ (backfill selected scored).map Recipe.id,
      a ∈ selected.map Recipe.id ∨ a ∈ scored.map fun e => e.recipe.id := by
  intro a ha
  obtain ⟨r, hr, rfl⟩ := List.mem_map.mp ha
  rcases backfill_mem scored selected r hr with h | h
  · exact Or.inl (List.mem_map_of_mem _ h)
  · right
    obtain ⟨e, he, rfl⟩ := List.mem_map.mp h
    exact List.mem_map.mpr ⟨e, he, rfl⟩

/-- Exact size of the backfilled selection: six, or the number of scored
candidates, whichever is smaller — provided identifiers are distinct and
the initial selection is drawn from the scored pool. -/
theorem backfill_length_eq (scored : List ScoredCandidate) (selected : List Recipe)
    (hsellen : selected.length ≤ 6)
    (hnodup : (selected.map Recipe.id).Nodup)
    (hscored : (scored.map fun e => e.recipe.id).Nodup)
    (hsub : ∀ a ∈ selected.map Recipe.id, a ∈ scored.map fun e => e.recipe.id) :
    (backfill selected scored).length = min 6 scored.length := by
  have hle6 := backfill_length_le_six scored selected hsellen
  have hndp := backfill_nodup scored selected hnodup
  have hsub' : ∀ a ∈ (backfill selected scored).map Recipe.id,
      a ∈ scored.map fun e => e.recipe.id := by
    intro a ha
    rcases backfill_ids_subset scored selected a ha with h | h
    · exact hsub a h
    · exact h
  have hlen_le : (backfill selected scored).length ≤ scored.length := by
    have h1 := (List.subperm_of_subset hndp hsub').length_le
    simpa using h1
  have hdisj : 6 ≤ (backfill selected scored).length ∨
      scored.length ≤ (backfill selected scored).length := by
    rcases backfill_covers scored selected with h | h
    · exact Or.inl h
    · right
      have hcov : ∀ a ∈ scored.map (fun e => e.recipe.id),
          a ∈ (backfill selected scored).map Recipe.id := by
        intro a ha
        obtain ⟨e, he, rfl⟩ := List.mem_map.mp ha
        exact h e he
      have h1 := (List.subperm_of_subset hscored hcov).length_le
      simpa using h1
  omega

/-- The scored, sorted candidates are a permutation of the scored pool
(sorting permutes). -/
theorem scoredSorted_perm (recipes : List Recipe) (pantryItems : List String)
    (preferences : Preferences) :
    (scoredSorted recipes pantryItems preferences).Perm
      ((allergenSafePool recipes preferences).map fun recipe =>
        scoreRecipe recipe pantryItems preferences) :=
  List.mergeSort_perm _ _

/-- The recipes carried by the sorted candidates are a permutation of
the allergen-safe pool. -/
theorem scoredSorted_recipes_perm (recipes : List Recipe) (pantryItems : List String)
    (preferences : Preferences) :
    ((scoredSorted recipes pantryItems preferences).map fun e => e.recipe).Perm
      (allergenSafePool recipes preferences) := by
  have h1 := (scoredSorted_perm recipes pantryItems preferences).map
    fun e : ScoredCandidate => e.recipe
  refine h1.trans ?_
  rw [List.map_map]
  have h2 : ((fun e : ScoredCandidate => e.recipe) ∘ fun recipe =>
      scoreRecipe recipe pantryItems preferences) = fun r : Recipe => r := rfl
  rw [h2, List.map_id']

/-- The identifiers of the sorted candidates are a permutation of the
pool's identifiers. -/
theorem scoredSorted_ids_perm (recipes : List Recipe) (pantryItems : List String)
    (preferences : Preferences) :
    ((scoredSorted recipes pantryItems preferences).map fun e => e.recipe.id).Perm
      ((allergenSafePool recipes preferences).map Recipe.id) := by
  have h1 := (scoredSorted_recipes_perm recipes pantryItems preferences).map Recipe.id
  rw [List.map_map] at h1
  exact h1

/-- The pool keeps distinct identifiers distinct. -/
theorem allergenSafePool_ids_nodup (recipes : List Recipe) (preferences : Preferences)
    (h : (recipes.map Recipe.id).Nodup) :
    ((allergenSafePool recipes preferences).map Recipe.id).Nodup :=
  List.Nodup.sublist ((List.filter_sublist recipes).map Recipe.id) h

/-- The strict selection's identifiers form a sublist of the sorted
candidates' identifiers. -/
theorem strictSelected_ids_sublist (recipes : List Recipe) (pantryItems : List String)
    (preferences : Preferences) :
    ((strictSelected recipes pantryItems preferences).map Recipe.id).Sublist
      ((scoredSorted recipes pantryItems preferences).map fun e => e.recipe.id) := by
  rw [strictSelected, List.map_map]
  exact ((List.take_sublist 6 _).trans (List.filter_sublist _)).map _

/-- The strict selection is drawn from the sorted candidates' recipes. -/
theorem strictSelected_subset (recipes : List Recipe) (pantryItems : List String)
    (preferences : Preferences) :
    strictSelected recipes pantryItems preferences ⊆
      (scoredSorted recipes pantryItems preferences).map fun e => e.recipe :=
  (List.Sublist.map _ ((List.take_sublist 6 _).trans (List.filter_sublist _))).subset

/-- The strict selection has at most six entries. -/
theorem strictSelected_length_le (recipes : List Recipe) (pantryItems : List String)
    (preferences : Preferences) :
    (strictSelected recipes pantryItems preferences).length ≤ 6 := by
  rw [strictSelected, List.length_map, List.length_take]
  omega

/-- The sorted candidate list has the pool's size. -/
theorem scoredSorted_length (recipes : List Recipe) (pantryItems : List String)
    (preferences : Preferences) :
    (scoredSorted recipes pantryItems preferences).length =
      (allergenSafePool recipes preferences).length := by
  have h := (scoredSorted_recipes_perm recipes pantryItems preferences).length_eq
  simpa using h

/-- Every recipe returned by `generateRecipeOptions` comes from the
allergen-safe pool, on every path of the selection ladder. -/
theorem generateRecipeOptions_subset (recipes : List Recipe) (pantryItems : List String)
    (preferences : Preferences) (r : Recipe)
    (hr : r ∈ generateRecipeOptions recipes pantryItems preferences) :
    r ∈ allergenSafePool recipes preferences := by
  have hin_sorted : ∀ x : Recipe,
      x ∈ (scoredSorted recipes pantryItems preferences).map (fun e => e.recipe) →
      x ∈ allergenSafePool recipes preferences := fun x hx =>
    (scoredSorted_recipes_perm recipes pantryItems preferences).mem_iff.mp hx
  have hin_strict : ∀ x : Recipe, x ∈ strictSelected recipes pantryItems preferences →
      x ∈ allergenSafePool recipes preferences := fun x hx =>
    hin_sorted x (strictSelected_subset recipes pantryItems preferences hx)
  simp only [generateRecipeOptions] at hr
  split at hr
  · split at hr
    · exact (List.take_sublist _ _).subset hr
    · rcases backfill_mem _ _ r ((List.take_sublist 6 _).subset hr) with h | h
      · exact hin_strict r h
      · exact hin_sorted r h
  · exact hin_strict r ((List.take_sublist 6 _).subset hr)

/-- A recipe passing the allergen pre-filter shares no allergen with the
blocked list. -/
theorem allergenSatisfied_disjoint (r : Recipe) (blocked : List Allergen)
    (h : allergenSatisfied r blocked = true) (a : Allergen)
    (ha : a ∈ r.allergens) : a ∉ blocked := by
  intro hmem
  rw [allergenSatisfied] at h
  split at h
  · next hempty =>
    rw [List.isEmpty_iff] at hempty
    rw [hempty] at hmem
    exact absurd hmem (List.not_mem_nil a)
  · simp only [Bool.not_eq_eq_eq_not, Bool.not_true, List.any_eq_false,
      decide_eq_true_eq] at h
    exact absurd (List.elem_eq_true_of_mem hmem) (by simpa using h a ha)

/-- **C3**: every recipe returned by `generateRecipeOptions` contains no
avoided allergen: its allergens list is disjoint from
`preferences.allergensToAvoid`, on every path of the selection
algorithm, including the small-pool fallback. -/
theorem generateRecipeOptions_allergen_free (recipes : List Recipe)
    (pantryItems : List String) (preferences : Preferences) (r : Recipe)
    (hr : r ∈ generateRecipeOptions recipes pantryItems preferences)
    (a : Allergen) (ha : a ∈ r.allergens) :
    a ∉ preferences.allergensToAvoid :=
  allergenSatisfied_disjoint r preferences.allergensToAvoid
    (List.mem_filter.mp (generateRecipeOptions_subset recipes pantryItems preferences r hr)).2
    a ha

/-- Witness for **C3**: a single dairy-containing recipe is returned
when only nuts are avoided, and indeed dairy is not among the avoided
allergens. -/
theorem generateRecipeOptions_allergen_free_witness :
    dairyRecipe ∈ generateRecipeOptions [dairyRecipe] [] nutFreePrefs
    ∧ Allergen.dairy ∉ nutFreePrefs.allergensToAvoid := by
  have hgen : generateRecipeOptions [dairyRecipe] [] nutFreePrefs = [dairyRecipe] := by
    have hpool : allergenSafePool [dairyRecipe] nutFreePrefs = [dairyRecipe] := by rfl
    have hrec : (scoreRecipe dairyRecipe [] nutFreePrefs).recipe = dairyRecipe := rfl
    have hsorted : scoredSorted [dairyRecipe] [] nutFreePrefs =
        [scoreRecipe dairyRecipe [] nutFreePrefs] := by
      rw [scoredSorted, hpool]
      simp [List.mergeSort]
    have hsm : (scoreRecipe dairyRecipe [] nutFreePrefs).strictMatch = true := by decide
    have hstrict : strictSelected [dairyRecipe] [] nutFreePrefs = [dairyRecipe] := by
      rw [strictSelected, hsorted]
      simp [hsm, hrec]
    simp only [generateRecipeOptions, hstrict, hsorted, hpool]
    norm_num [backfill, backfillStep, hrec]
  have hmem : dairyRecipe ∈ generateRecipeOptions [dairyRecipe] [] nutFreePrefs := by
    rw [hgen]
    exact List.mem_singleton_self _
  exact ⟨hmem, generateRecipeOptions_allergen_free [dairyRecipe] [] nutFreePrefs
    dairyRecipe hmem Allergen.dairy (by decide)⟩

/-- **C1**: for a corpus with distinct identifiers holding at least
three allergen-safe recipes, `generateRecipeOptions` returns between 3
and 6 recipes with pairwise distinct identifiers, for every pantry and
preferences. -/
theorem generateRecipeOptions_count_nodup (recipes : List Recipe)
    (pantryItems : List String) (preferences : Preferences)
    (hids : (recipes.map Recipe.id).Nodup)
    (hpool : 3 ≤ (allergenSafePool recipes preferences).length) :
    3 ≤ (generateRecipeOptions recipes pantryItems preferences).length
    ∧ (generateRecipeOptions recipes pantryItems preferences).length ≤ 6
    ∧ ((generateRecipeOptions recipes pantryItems preferences).map Recipe.id).Nodup := by
  have hpoolIds := allergenSafePool_ids_nodup recipes preferences hids
  have hsortIds : ((scoredSorted recipes pantryItems preferences).map
      fun e => e.recipe.id).Nodup :=
    (scoredSorted_ids_perm recipes pantryItems preferences).nodup_iff.mpr hpoolIds
  have hstrictIds : ((strictSelected recipes pantryItems preferences).map Recipe.id).Nodup :=
    List.Nodup.sublist (strictSelected_ids_sublist recipes pantryItems preferences) hsortIds
  have hstrictLen := strictSelected_length_le recipes pantryItems preferences
  have hstrictSub : ∀ a ∈ (strictSelected recipes pantryItems preferences).map Recipe.id,
      a ∈ (scoredSorted recipes pantryItems preferences).map fun e => e.recipe.id :=
    (strictSelected_ids_sublist recipes pantryItems preferences).subset
  have hslen := scoredSorted_length recipes pantryItems preferences
  simp only [generateRecipeOptions]
  split
  · next h3 =>
    have hblen : (backfill (strictSelected recipes pantryItems preferences)
        (scoredSorted recipes pantryItems preferences)).length =
        min 6 (scoredSorted recipes pantryItems preferences).length :=
      backfill_length_eq _ _ hstrictLen hstrictIds hsortIds hstrictSub
    have h3le : 3 ≤ (backfill (strictSelected recipes pantryItems preferences)
        (scoredSorted recipes pantryItems preferences)).length := by
      rw [hblen, hslen]
      omega
    rw [if_neg (by omega)]
    refine ⟨?_, ?_, ?_⟩
    · rw [List.length_take]
      omega
    · rw [List.length_take]
      omega
    · exact List.Nodup.sublist ((List.take_sublist 6 _).map Recipe.id)
        (backfill_nodup _ _ hstrictIds)
  · next h3 =>
    refine ⟨?_, ?_, ?_⟩
    · rw [List.length_take]
      omega
    · rw [List.length_take]
      omega
    · exact List.Nodup.sublist ((List.take_sublist 6 _).map Recipe.id) hstrictIds

/-- Witness for **C1** on a four-recipe corpus with distinct
identifiers and no blocked allergens. -/
theorem generateRecipeOptions_count_nodup_witness :
    3 ≤ (generateRecipeOptions fourPlainRecipes [] veganPrefs).length
    ∧ (generateRecipeOptions fourPlainRecipes [] veganPrefs).length ≤ 6
    ∧ ((generateRecipeOptions fourPlainRecipes [] veganPrefs).map Recipe.id).Nodup :=
  generateRecipeOptions_count_nodup fourPlainRecipes [] veganPrefs (by decide) (by decide)

/-- When no pool recipe is a strict match, the strict selection is
empty. -/
theorem strictSelected_eq_nil (recipes : List Recipe) (pantryItems : List String)
    (preferences : Preferences)
    (h : ∀ r ∈ allergenSafePool recipes preferences,
      (scoreRecipe r pantryItems preferences).strictMatch = false) :
    strictSelected recipes pantryItems preferences = [] := by
  rw [strictSelected]
  have hfil : (scoredSorted recipes pantryItems preferences).filter
      (fun entry => entry.strictMatch) = [] := by
    rw [List.filter_eq_nil_iff]
    intro e he
    have he' : e ∈ (allergenSafePool recipes preferences).map
        (fun recipe => scoreRecipe recipe pantryItems preferences) :=
      (scoredSorted_perm recipes pantryItems preferences).mem_iff.mp he
    obtain ⟨r, hr, rfl⟩ := List.mem_map.mp he'
    simp [h r hr]
  rw [hfil]
  rfl

/-- Size of the result when the backfill loop runs on a pool of at
least three distinct recipes: `min 6 (pool size)`. -/
theorem generateRecipeOptions_length_min (recipes : List Recipe)
    (pantryItems : List String) (preferences : Preferences)
    (hids : (recipes.map Recipe.id).Nodup)
    (hpool : 3 ≤ (allergenSafePool recipes preferences).length)
    (hstrict : (strictSelected recipes pantryItems preferences).length < 3) :
    (generateRecipeOptions recipes pantryItems preferences).length =
      min 6 (allergenSafePool recipes preferences).length := by
  have hpoolIds := allergenSafePool_ids_nodup recipes preferences hids
  have hsortIds : ((scoredSorted recipes pantryItems preferences).map
      fun e => e.recipe.id).Nodup :=
    (scoredSorted_ids_perm recipes pantryItems preferences).nodup_iff.mpr hpoolIds
  have hstrictIds : ((strictSelected recipes pantryItems preferences).map Recipe.id).Nodup :=
    List.Nodup.sublist (strictSelected_ids_sublist recipes pantryItems preferences) hsortIds
  have hstrictLen := strictSelected_length_le recipes pantryItems preferences
  have hstrictSub : ∀ a ∈ (strictSelected recipes pantryItems preferences).map Recipe.id,
      a ∈ (scoredSorted recipes pantryItems preferences).map fun e => e.recipe.id :=
    (strictSelected_ids_sublist recipes pantryItems preferences).subset
  have hslen := scoredSorted_length recipes pantryItems preferences
  have hblen : (backfill (strictSelected recipes pantryItems preferences)
      (scoredSorted recipes pantryItems preferences)).length =
      min 6 (scoredSorted recipes pantryItems preferences).length :=
    backfill_length_eq _ _ hstrictLen hstrictIds hsortIds hstrictSub
  simp only [generateRecipeOptions]
  rw [if_pos hstrict, if_neg (by omega), List.length_take]
  omega

/-- **C6 (amended)**: the backfill stops at six, not three: when fewer
than three strict matches are selected and the allergen-safe pool holds
at least three recipes (the corpus identifiers being distinct), the
returned list has exactly `min 6 (pool size)` recipes — three only when
the pool has exactly three. -/
theorem generateRecipeOptions_backfill_length (recipes : List Recipe)
    (pantryItems : List String) (preferences : Preferences)
    (hids : (recipes.map Recipe.id).Nodup)
    (hpool : 3 ≤ (allergenSafePool recipes preferences).length)
    (hstrict : (strictSelected recipes pantryItems preferences).length < 3) :
    (generateRecipeOptions recipes pantryItems preferences).length =
      min 6 (allergenSafePool recipes preferences).length :=
  generateRecipeOptions_length_min recipes pantryItems preferences hids hpool hstrict

/-- Witness for **C6 (amended)** on a four-recipe pool with no strict
matches: the result has `min 6 4 = 4` recipes. -/
theorem generateRecipeOptions_backfill_length_witness :
    (generateRecipeOptions fourPlainRecipes [] veganPrefs).length =
      min 6 (allergenSafePool fourPlainRecipes veganPrefs).length :=
  generateRecipeOptions_backfill_length fourPlainRecipes [] veganPrefs
    (by decide) (by decide)
    (by rw [strictSelected_eq_nil fourPlainRecipes [] veganPrefs (by decide)]; norm_num)

/-- **C6** counterexample: four allergen-safe recipes with distinct
identifiers and zero strict matches — the claim demands exactly three
returned recipes, but the code backfills up to six and returns four. -/
theorem generateRecipeOptions_backfill_counterexample :
    (strictSelected fourPlainRecipes [] veganPrefs).length < 3
    ∧ 3 ≤ (allergenSafePool fourPlainRecipes veganPrefs).length
    ∧ (generateRecipeOptions fourPlainRecipes [] veganPrefs).length = 4
    ∧ (generateRecipeOptions fourPlainRecipes [] veganPrefs).length ≠ 3 := by
  have hnil : strictSelected fourPlainRecipes [] veganPrefs = [] :=
    strictSelected_eq_nil fourPlainRecipes [] veganPrefs (by decide)
  have hstrict : (strictSelected fourPlainRecipes [] veganPrefs).length < 3 := by
    rw [hnil]
    norm_num
  have hpool4 : (allergenSafePool fourPlainRecipes veganPrefs).length = 4 := by decide
  have hlen : (generateRecipeOptions fourPlainRecipes [] veganPrefs).length =
      min 6 (allergenSafePool fourPlainRecipes veganPrefs).length :=
    generateRecipeOptions_length_min fourPlainRecipes [] veganPrefs
      (by decide) (by decide) hstrict
  refine ⟨hstrict, by rw [hpool4]; norm_num, ?_, ?_⟩
  · rw [hlen, hpool4]
    norm_num
  · rw [hlen, hpool4]
    norm_num

end Recipes
